import Mathlib

/-!
Verification of the merge-update routine of update_santiment.py.

The source program (src/update_example/update_santiment.py) has one piece
of logic with invariants, the function save_new_data (lines 67-85), plus
the timestamp-to-date-key conversion in process_data_file (lines 96-98).
We embed both shallowly:

* a Python dict with string keys and string values is modelled as an
  insertion-ordered association list with unique keys (dictInsert,
  dictLookup, dictKeys reproduce dict assignment, subscription and keys);
* the file system is abstracted to an Option value: none stands for an
  absent file, some rows for the parsed csv rows of the existing file;
* the IndexError raised on a row with fewer than two fields is modelled
  with Except Unit;
* csv rows are lists of field strings; joining with commas is modelled
  separately (the concrete fields appearing here never need csv quoting).
-/

namespace UpdateSantiment

/-- Python dict assignment d[k] = v: if the key is present, the value is
replaced in place (insertion order kept); otherwise the pair is appended. -/
def dictInsert (d : List (String × String)) (k v : String) : List (String × String) :=
  if d.any (fun p => p.1 == k) then
    d.map (fun p => if p.1 == k then (k, v) else p)
  else
    d ++ [(k, v)]

/-- Python dict subscription d[k]: value of the (unique) entry with key k. -/
def dictLookup (d : List (String × String)) (k : String) : Option String :=
  (d.find? (fun p => p.1 == k)).map Prod.snd

/-- Python dict.keys() in insertion order. -/
def dictKeys (d : List (String × String)) : List String :=
  d.map Prod.fst

/-- Line 74 of the source, for one row: data_dict[line[0]] = line[1], which
raises IndexError when the row has fewer than two fields. -/
def loadStep (d : List (String × String)) (line : List String) :
    Except Unit (List (String × String)) :=
  match line with
  | k :: v :: _ => .ok (dictInsert d k v)
  | _ => .error ()

/-- The loop of lines 73-74 started from an arbitrary dict (the
generalization used for induction). -/
def loadRowsFrom (d : List (String × String)) (rows : List (List String)) :
    Except Unit (List (String × String)) :=
  rows.foldlM loadStep d

/-- Lines 71-74 of the source: build data_dict from the rows of the existing
file, starting from the empty dict of line 69. -/
def loadRows (rows : List (List String)) : Except Unit (List (String × String)) :=
  loadRowsFrom [] rows

/-- Lines 69-74 of the source: start from an empty dict when the file is
absent, otherwise read the existing rows. -/
def loadTable (existing : Option (List (List String))) : Except Unit (List (String × String)) :=
  match existing with
  | none => .ok []
  | some rows => loadRows rows

/-- Lines 76-79 of the source: for each incoming record set
data_dict[date] = val. -/
def mergeRecords (d : List (String × String)) (recs : List (String × String)) :
    List (String × String) :=
  recs.foldl (fun d r => dictInsert d r.1 r.2) d

/-- The order Python sorted uses on str: lexicographic comparison of the
code-point sequences. It coincides with the order on String itself
(String.le_iff_toList_le) but, unlike that one, evaluates by kernel
reduction. -/
def keyLe (a b : String) : Prop :=
  a.data ≤ b.data

/-- Strict version of keyLe. -/
def keyLt (a b : String) : Prop :=
  a.data < b.data

instance : DecidableRel keyLe :=
  fun a b => inferInstanceAs (Decidable (a.data ≤ b.data))

instance : DecidableRel keyLt :=
  fun a b => inferInstanceAs (Decidable (a.data < b.data))

instance : IsTotal String keyLe :=
  ⟨fun a b => le_total a.data b.data⟩

instance : IsTrans String keyLe :=
  ⟨fun _ _ _ hab hbc => le_trans hab hbc⟩

instance : IsAntisymm String keyLe :=
  ⟨fun _ _ hab hba => String.ext (le_antisymm hab hba)⟩

/-- Lines 81-85 of the source: for date in sorted(data_dict.keys()) write the
row [date, val, val, val, val, 0]. The lookup of a key of the dict always
succeeds, so the default of getD is never reached. -/
def outputRows (d : List (String × String)) : List (List String) :=
  (List.insertionSort keyLe (dictKeys d)).map
    (fun date =>
      let val := (dictLookup d date).getD ""
      [date, val, val, val, val, "0"])

/-- save_new_data (lines 67-85): load the existing table, merge the new
records into it, and produce the rows written back to the file. -/
def save_new_data (existing : Option (List (List String))) (recs : List (String × String)) :
    Except Unit (List (List String)) :=
  (loadTable existing).map (fun d => outputRows (mergeRecords d recs))

/-- csv.writer on fields without delimiter, quote or newline characters:
one comma-separated line per row. -/
def serializeRows (rows : List (List String)) : List String :=
  rows.map (String.intercalate ",")

/-- Lines 96-98 of the source: end = s.index("T") + 1, then
s[:end].replace("-", ""). Python str.index raises ValueError when "T" does
not occur, modelled by none. Note the slice bound index("T") + 1 keeps the
letter T itself in the result. -/
def toDateKey (s : String) : Option String :=
  match s.data.findIdx? (fun c => c == 'T') with
  | none => none
  | some i => some (String.mk ((s.data.take (i + 1)).filter (fun c => c != '-')))

/-- The value of the last record of recs whose key is k, if any: the value
that last-write-wins merging assigns to k. -/
def lastValue (recs : List (String × String)) (k : String) : Option String :=
  (recs.reverse.find? (fun r => r.1 == k)).map Prod.snd

/-- First field of a written row (its date-key). -/
def rowKey (row : List String) : String :=
  row.headD ""

/-! ### Lemmas about the dict model -/

theorem any_key_iff_mem (d : List (String × String)) (k : String) :
    (d.any (fun p => p.1 == k)) = true ↔ k ∈ dictKeys d := by
  simp only [List.any_eq_true, beq_iff_eq, dictKeys, List.mem_map]

theorem dictKeys_dictInsert (d : List (String × String)) (k v : String) :
    dictKeys (dictInsert d k v) =
      if k ∈ dictKeys d then dictKeys d else dictKeys d ++ [k] := by
  unfold dictInsert
  by_cases hmem : k ∈ dictKeys d
  · rw [if_pos ((any_key_iff_mem d k).mpr hmem), if_pos hmem]
    unfold dictKeys
    rw [List.map_map]
    apply List.map_congr_left
    intro p _
    by_cases hk : p.1 == k
    · simp only [Function.comp, hk, if_pos]
      exact (eq_of_beq hk).symm
    · simp only [Function.comp, hk]
      rw [if_neg (by simp_all)]
  · rw [if_neg (by rw [any_key_iff_mem]; exact hmem), if_neg hmem]
    simp [dictKeys]

theorem find?_replace_ne (d : List (String × String)) (k v k' : String) (hne : k' ≠ k) :
    (d.map (fun p => if p.1 == k then (k, v) else p)).find? (fun p => p.1 == k') =
      d.find? (fun p => p.1 == k') := by
  induction d with
  | nil => rfl
  | cons p t ih =>
    by_cases hk : (p.1 == k) = true
    · have h1 : (if p.1 == k then (k, v) else p) = (k, v) := by simp [hk]
      have hpk : p.1 = k := eq_of_beq hk
      rw [List.map_cons, h1]
      rw [List.find?_cons_of_neg _ (by simpa using fun h => hne h.symm)]
      rw [List.find?_cons_of_neg _ (by simp [hpk]; exact fun h => hne h.symm)]
      exact ih
    · have h1 : (if p.1 == k then (k, v) else p) = p := by simp [hk]
      rw [List.map_cons, h1]
      by_cases hpk' : (p.1 == k') = true
      · rw [@List.find?_cons_of_pos _ (fun q => q.1 == k') p _ hpk',
          @List.find?_cons_of_pos _ (fun q => q.1 == k') p _ hpk']
      · rw [@List.find?_cons_of_neg _ (fun q => q.1 == k') p _ hpk',
          @List.find?_cons_of_neg _ (fun q => q.1 == k') p _ hpk']
        exact ih

theorem find?_replace_eq (d : List (String × String)) (k v : String)
    (hmem : k ∈ dictKeys d) :
    (d.map (fun p => if p.1 == k then (k, v) else p)).find? (fun p => p.1 == k) =
      some (k, v) := by
  induction d with
  | nil => simp [dictKeys] at hmem
  | cons p t ih =>
    by_cases hk : (p.1 == k) = true
    · have h1 : (if p.1 == k then (k, v) else p) = (k, v) := by simp [hk]
      rw [List.map_cons, h1, List.find?_cons_of_pos _ (by simp)]
    · have h1 : (if p.1 == k then (k, v) else p) = p := by simp [hk]
      rw [List.map_cons, h1, @List.find?_cons_of_neg _ (fun q => q.1 == k) p _ hk]
      apply ih
      have hmem' : k ∈ p.1 :: dictKeys t := hmem
      rcases List.mem_cons.mp hmem' with h | h
      · exact absurd h.symm (by simpa using hk)
      · exact h

theorem dictLookup_eq_none_iff (d : List (String × String)) (k : String) :
    dictLookup d k = none ↔ k ∉ dictKeys d := by
  unfold dictLookup
  rw [Option.map_eq_none', List.find?_eq_none]
  simp only [beq_iff_eq, dictKeys, List.mem_map]
  constructor
  · rintro h ⟨p, hp, rfl⟩
    exact h p hp rfl
  · intro h p hp he
    exact h ⟨p, hp, he⟩

theorem dictLookup_isSome_of_mem (d : List (String × String)) (k : String)
    (hmem : k ∈ dictKeys d) : ∃ v, dictLookup d k = some v := by
  rcases ho : dictLookup d k with _ | v
  · exact absurd ((dictLookup_eq_none_iff d k).mp ho) (by simpa using hmem)
  · exact ⟨v, rfl⟩

theorem mem_of_dictLookup_some (d : List (String × String)) (k v : String)
    (h : dictLookup d k = some v) : k ∈ dictKeys d := by
  by_contra hn
  rw [(dictLookup_eq_none_iff d k).mpr hn] at h
  cases h

theorem dictLookup_dictInsert (d : List (String × String)) (k v k' : String) :
    dictLookup (dictInsert d k v) k' =
      if k' = k then some v else dictLookup d k' := by
  unfold dictInsert
  by_cases hmem : k ∈ dictKeys d
  · rw [if_pos ((any_key_iff_mem d k).mpr hmem)]
    by_cases he : k' = k
    · subst he
      rw [if_pos rfl]
      unfold dictLookup
      rw [find?_replace_eq d k' v hmem]
      rfl
    · rw [if_neg he]
      unfold dictLookup
      rw [find?_replace_ne d k v k' he]
  · rw [if_neg (by rw [any_key_iff_mem]; exact hmem)]
    unfold dictLookup
    rw [List.find?_append]
    by_cases he : k' = k
    · subst he
      rw [if_pos rfl]
      have h1 : d.find? (fun p => p.1 == k') = none := by
        have := (dictLookup_eq_none_iff d k').mpr hmem
        simpa [dictLookup] using this
      rw [h1]
      simp
    · rw [if_neg he]
      have h2 : [(k, v)].find? (fun p => p.1 == k') = none := by
        rw [List.find?_cons_of_neg _ (by simpa using fun h => he h.symm)]
        rfl
      rw [h2]
      simp [dictLookup]

theorem nodup_dictKeys_dictInsert (d : List (String × String)) (k v : String)
    (h : (dictKeys d).Nodup) : (dictKeys (dictInsert d k v)).Nodup := by
  rw [dictKeys_dictInsert]
  by_cases hmem : k ∈ dictKeys d
  · rwa [if_pos hmem]
  · rw [if_neg hmem]
    simpa [List.nodup_append] using ⟨h, hmem⟩

theorem mem_dictKeys_dictInsert (d : List (String × String)) (k v k' : String) :
    k' ∈ dictKeys (dictInsert d k v) ↔ k' = k ∨ k' ∈ dictKeys d := by
  rw [dictKeys_dictInsert]
  by_cases hmem : k ∈ dictKeys d
  · rw [if_pos hmem]
    constructor
    · exact Or.inr
    · rintro (rfl | h)
      · exact hmem
      · exact h
  · rw [if_neg hmem]
    simp [List.mem_append, or_comm]

/-! ### Lemmas about last-write-wins merging -/

theorem option_or_none {α : Type} (x : Option α) : x.or none = x := by
  cases x <;> rfl

theorem option_or_or_self {α : Type} (x y : Option α) : x.or (x.or y) = x.or y := by
  cases x <;> rfl

theorem option_map_or {α β : Type} (x y : Option α) (f : α → β) :
    (x.or y).map f = (x.map f).or (y.map f) := by
  cases x <;> rfl

theorem lastValue_cons (r : String × String) (rs : List (String × String)) (k : String) :
    lastValue (r :: rs) k =
      (lastValue rs k).or (if r.1 = k then some r.2 else none) := by
  unfold lastValue
  rw [List.reverse_cons, List.find?_append, option_map_or]
  congr 1
  by_cases he : r.1 = k
  · rw [if_pos he, @List.find?_cons_of_pos _ (fun q => q.1 == k) r [] (by simp [he])]
    rfl
  · rw [if_neg he, @List.find?_cons_of_neg _ (fun q => q.1 == k) r [] (by simpa using he)]
    rfl

theorem lastValue_eq_none_iff (recs : List (String × String)) (k : String) :
    lastValue recs k = none ↔ k ∉ recs.map Prod.fst := by
  unfold lastValue
  rw [Option.map_eq_none', List.find?_eq_none]
  simp only [beq_iff_eq, List.mem_map]
  constructor
  · rintro h ⟨p, hp, rfl⟩
    exact h p (by simpa using hp) rfl
  · intro h p hp he
    exact h ⟨p, by simpa using hp, he⟩

theorem mergeRecords_nil (d : List (String × String)) : mergeRecords d [] = d := rfl

theorem mergeRecords_cons (d : List (String × String)) (r : String × String)
    (rs : List (String × String)) :
    mergeRecords d (r :: rs) = mergeRecords (dictInsert d r.1 r.2) rs := rfl

theorem dictLookup_mergeRecords (recs : List (String × String))
    (d : List (String × String)) (k : String) :
    dictLookup (mergeRecords d recs) k = (lastValue recs k).or (dictLookup d k) := by
  induction recs generalizing d with
  | nil => rfl
  | cons r rs ih =>
    rw [mergeRecords_cons, ih, lastValue_cons, Option.or_assoc]
    congr 1
    rw [dictLookup_dictInsert]
    by_cases he : k = r.1
    · rw [if_pos he, if_pos he.symm]
      rfl
    · rw [if_neg he, if_neg (fun h => he h.symm)]
      rfl

theorem mem_dictKeys_mergeRecords (recs : List (String × String))
    (d : List (String × String)) (k : String) :
    k ∈ dictKeys (mergeRecords d recs) ↔ k ∈ dictKeys d ∨ k ∈ recs.map Prod.fst := by
  induction recs generalizing d with
  | nil => simp [mergeRecords_nil]
  | cons r rs ih =>
    rw [mergeRecords_cons, ih, mem_dictKeys_dictInsert]
    simp only [List.map_cons, List.mem_cons]
    tauto

theorem nodup_dictKeys_mergeRecords (recs : List (String × String))
    (d : List (String × String)) (h : (dictKeys d).Nodup) :
    (dictKeys (mergeRecords d recs)).Nodup := by
  induction recs generalizing d with
  | nil => exact h
  | cons r rs ih =>
    rw [mergeRecords_cons]
    exact ih _ (nodup_dictKeys_dictInsert _ _ _ h)

/-! ### Lemmas about loading the existing rows -/

theorem loadRowsFrom_nil (d : List (String × String)) : loadRowsFrom d [] = .ok d := rfl

theorem loadRowsFrom_cons_ok (d : List (String × String)) (k v : String)
    (rest : List String) (rows : List (List String)) :
    loadRowsFrom d ((k :: v :: rest) :: rows) = loadRowsFrom (dictInsert d k v) rows := rfl

theorem loadRowsFrom_cons_short (d : List (String × String)) (line : List String)
    (rows : List (List String)) (h : line.length < 2) :
    loadRowsFrom d (line :: rows) = .error () := by
  match line, h with
  | [], _ => rfl
  | [_], _ => rfl

theorem loadRowsFrom_ok_eq_merge (rows : List (List String)) :
    ∀ (d₀ d : List (String × String)), loadRowsFrom d₀ rows = .ok d →
      d = mergeRecords d₀ (rows.map (fun r => (r.headD "", (r.drop 1).headD ""))) := by
  induction rows with
  | nil =>
    intro d₀ d h
    cases h
    rfl
  | cons line rows ih =>
    intro d₀ d h
    match line with
    | [] => cases h
    | [_] => cases h
    | k :: v :: rest =>
      rw [loadRowsFrom_cons_ok] at h
      simpa using ih _ _ h

theorem loadRowsFrom_take_two (rows : List (List String)) :
    ∀ d : List (String × String),
      loadRowsFrom d (rows.map (fun r => r.take 2)) = loadRowsFrom d rows := by
  induction rows with
  | nil => intro d; rfl
  | cons line rows ih =>
    intro d
    match line with
    | [] => rfl
    | [_] => rfl
    | k :: v :: rest =>
      rw [List.map_cons]
      show loadRowsFrom d ((k :: v :: []) :: _) = _
      rw [loadRowsFrom_cons_ok, loadRowsFrom_cons_ok]
      exact ih _

theorem loadRowsFrom_nodup (rows : List (List String)) :
    ∀ d₀ d : List (String × String), (dictKeys d₀).Nodup →
      loadRowsFrom d₀ rows = .ok d → (dictKeys d).Nodup := by
  induction rows with
  | nil =>
    intro d₀ d h0 h
    cases h
    exact h0
  | cons line rows ih =>
    intro d₀ d h0 h
    match line with
    | [] => cases h
    | [_] => cases h
    | k :: v :: rest =>
      rw [loadRowsFrom_cons_ok] at h
      exact ih _ _ (nodup_dictKeys_dictInsert _ _ _ h0) h

theorem loadTable_ok_nodup (existing : Option (List (List String)))
    (d : List (String × String)) (h : loadTable existing = .ok d) :
    (dictKeys d).Nodup := by
  match existing with
  | none =>
    cases h
    exact List.nodup_nil
  | some rows =>
    exact loadRowsFrom_nodup rows [] d List.nodup_nil h

/-! ### Lemmas about the written rows -/

theorem mem_outputRows (d : List (String × String)) (row : List String) :
    row ∈ outputRows d ↔
      ∃ k v, dictLookup d k = some v ∧ row = [k, v, v, v, v, "0"] := by
  unfold outputRows
  rw [List.mem_map]
  constructor
  · rintro ⟨date, hmem, rfl⟩
    have hmem' : date ∈ dictKeys d := (List.mem_insertionSort keyLe).mp hmem
    obtain ⟨v, hv⟩ := dictLookup_isSome_of_mem d date hmem'
    exact ⟨date, v, hv, by simp [hv]⟩
  · rintro ⟨k, v, hv, rfl⟩
    refine ⟨k, ?_, by simp [hv]⟩
    exact (List.mem_insertionSort keyLe).mpr (mem_of_dictLookup_some d k v hv)

theorem outputRows_map_rowKey (d : List (String × String)) :
    (outputRows d).map rowKey = List.insertionSort keyLe (dictKeys d) := by
  unfold outputRows
  rw [List.map_map]
  conv_rhs => rw [← List.map_id (List.insertionSort keyLe (dictKeys d))]
  apply List.map_congr_left
  intro date _
  rfl

theorem outputRows_strict_sorted (d : List (String × String))
    (hnd : (dictKeys d).Nodup) :
    ((outputRows d).map rowKey).Pairwise keyLt := by
  rw [outputRows_map_rowKey]
  have hsorted : List.Sorted keyLe (List.insertionSort keyLe (dictKeys d)) :=
    List.sorted_insertionSort keyLe (dictKeys d)
  have hnd' : (List.insertionSort keyLe (dictKeys d)).Nodup :=
    (List.perm_insertionSort keyLe (dictKeys d)).symm.nodup hnd
  refine (hsorted.and hnd').imp ?_
  rintro a b ⟨hle, hne⟩
  exact lt_of_le_of_ne hle (fun h => hne (String.ext h))

theorem outputRows_congr (d₁ d₂ : List (String × String))
    (hperm : List.Perm (dictKeys d₁) (dictKeys d₂))
    (hl : ∀ k, dictLookup d₁ k = dictLookup d₂ k) :
    outputRows d₁ = outputRows d₂ := by
  unfold outputRows
  have hs : List.insertionSort keyLe (dictKeys d₁) =
      List.insertionSort keyLe (dictKeys d₂) :=
    List.eq_of_perm_of_sorted
      (((List.perm_insertionSort keyLe _).trans hperm).trans
        (List.perm_insertionSort keyLe _).symm)
      (List.sorted_insertionSort keyLe _)
      (List.sorted_insertionSort keyLe _)
  rw [hs]
  apply List.map_congr_left
  intro date _
  simp only [hl date]

/-! ### Reading back what was written -/

theorem loadRowsFrom_pairs (ps : List (String × String)) :
    ∀ d₀ : List (String × String),
      loadRowsFrom d₀ (ps.map (fun p => [p.1, p.2, p.2, p.2, p.2, "0"])) =
        .ok (mergeRecords d₀ ps) := by
  induction ps with
  | nil => intro d₀; rfl
  | cons p ps ih =>
    intro d₀
    rw [List.map_cons, loadRowsFrom_cons_ok, mergeRecords_cons]
    exact ih _

theorem lastValue_map_keys (ks : List String) (vf : String → String) (k : String)
    (hnd : ks.Nodup) :
    lastValue (ks.map (fun k => (k, vf k))) k =
      if k ∈ ks then some (vf k) else none := by
  induction ks with
  | nil => simp [lastValue]
  | cons a ks ih =>
    rw [List.map_cons, lastValue_cons, ih (List.nodup_cons.mp hnd).2]
    by_cases hmem : k ∈ ks
    · have hka : k ≠ a := fun h => (List.nodup_cons.mp hnd).1 (h ▸ hmem)
      rw [if_pos hmem, if_pos (List.mem_cons.mpr (Or.inr hmem))]
      rfl
    · rw [if_neg hmem]
      by_cases hka : a = k
      · subst hka
        rw [if_pos rfl, if_pos (List.mem_cons.mpr (Or.inl rfl))]
        rfl
      · rw [if_neg hka, if_neg (by simp [hmem]; exact fun h => hka h.symm)]
        rfl

theorem outputRows_as_pairs (d : List (String × String)) :
    outputRows d =
      ((List.insertionSort keyLe (dictKeys d)).map
          (fun k => (k, (dictLookup d k).getD ""))).map
        (fun p => [p.1, p.2, p.2, p.2, p.2, "0"]) := by
  unfold outputRows
  rw [List.map_map]
  rfl

theorem loadRows_outputRows (d : List (String × String)) (hnd : (dictKeys d).Nodup) :
    ∃ d' : List (String × String),
      loadRows (outputRows d) = .ok d' ∧
        (∀ k, dictLookup d' k = dictLookup d k) ∧
        List.Perm (dictKeys d') (dictKeys d) ∧ (dictKeys d').Nodup := by
  set vf : String → String := fun k => (dictLookup d k).getD "" with hvf
  set ks : List String := List.insertionSort keyLe (dictKeys d) with hks
  have hknd : ks.Nodup := (List.perm_insertionSort keyLe (dictKeys d)).symm.nodup hnd
  have hload : loadRows (outputRows d) = .ok (mergeRecords [] (ks.map (fun k => (k, vf k)))) := by
    rw [outputRows_as_pairs]
    exact loadRowsFrom_pairs _ []
  refine ⟨mergeRecords [] (ks.map (fun k => (k, vf k))), hload, ?_, ?_, ?_⟩
  · intro k
    rw [dictLookup_mergeRecords, show dictLookup [] k = none from rfl,
      option_or_none, lastValue_map_keys ks vf k hknd]
    by_cases hmem : k ∈ dictKeys d
    · obtain ⟨v, hv⟩ := dictLookup_isSome_of_mem d k hmem
      rw [if_pos ((List.mem_insertionSort keyLe).mpr hmem), hv]
      simp [hvf, hv]
    · rw [if_neg (fun h => hmem ((List.mem_insertionSort keyLe).mp h)),
        (dictLookup_eq_none_iff d k).mpr hmem]
  · have hnd' : (dictKeys (mergeRecords [] (ks.map (fun k => (k, vf k))))).Nodup :=
      nodup_dictKeys_mergeRecords _ [] List.nodup_nil
    rw [List.perm_ext_iff_of_nodup hnd' hnd]
    intro a
    rw [mem_dictKeys_mergeRecords]
    constructor
    · rintro (h | h)
      · simp [dictKeys] at h
      · rw [List.map_map] at h
        obtain ⟨k, hk, he⟩ := List.mem_map.mp h
        have hka : k = a := by simpa using he
        subst hka
        exact (List.mem_insertionSort keyLe).mp hk
    · intro hmem
      right
      rw [List.map_map]
      exact List.mem_map.mpr ⟨a, (List.mem_insertionSort keyLe).mpr hmem, rfl⟩
  · exact nodup_dictKeys_mergeRecords _ [] List.nodup_nil

/-! ### Lemmas about the date-key conversion -/

theorem findIdx_T_append (l : List Char) (r : List Char) :
    ∀ i : Nat, 'T' ∉ l →
      List.findIdx? (fun c => c == 'T') (l ++ 'T' :: r) i = some (i + l.length) := by
  induction l with
  | nil =>
    intro i _
    rw [List.nil_append, List.findIdx?_cons, if_pos (by simp)]
    simp
  | cons c l ih =>
    intro i hmem
    have hc : c ≠ 'T' := fun h => hmem (h ▸ List.mem_cons_self c l)
    rw [List.cons_append, List.findIdx?_cons, if_neg (by simpa using hc),
      ih (i + 1) (fun h => hmem (List.mem_cons_of_mem c h))]
    congr 1
    simp only [List.length_cons]
    omega

theorem take_T_append (l : List Char) (r : List Char) :
    (l ++ 'T' :: r).take (l.length + 1) = l ++ ['T'] := by
  rw [List.take_append_eq_append_take, List.take_of_length_le (by omega)]
  congr 1
  have h1 : l.length + 1 - l.length = 1 := by omega
  rw [h1]
  rfl

theorem toDateKey_decompose (pre rest : String) (h : 'T' ∉ pre.data) :
    toDateKey (pre ++ "T" ++ rest) =
      some (String.mk (pre.data.filter (fun c => c != '-') ++ ['T'])) := by
  unfold toDateKey
  have hdata : (pre ++ "T" ++ rest).data = pre.data ++ 'T' :: rest.data := by
    rw [String.data_append, String.data_append, List.append_assoc]
    rfl
  rw [hdata, findIdx_T_append pre.data rest.data 0 h]
  simp only [Nat.zero_add]
  rw [take_T_append, List.filter_append]
  rfl

/-! ### Shape of a successful update -/

theorem save_new_data_ok_out (existing : Option (List (List String)))
    (recs : List (String × String)) (d : List (String × String))
    (out : List (List String)) (hload : loadTable existing = .ok d)
    (h : save_new_data existing recs = .ok out) :
    out = outputRows (mergeRecords d recs) := by
  unfold save_new_data at h
  rw [hload] at h
  have h' : Except.ok (outputRows (mergeRecords d recs)) = (Except.ok out : Except Unit _) := h
  cases h'
  rfl

theorem save_new_data_ok (existing : Option (List (List String)))
    (recs : List (String × String)) (out : List (List String))
    (h : save_new_data existing recs = .ok out) :
    ∃ d, loadTable existing = .ok d ∧ out = outputRows (mergeRecords d recs) := by
  cases hload : loadTable existing with
  | error e =>
    unfold save_new_data at h
    rw [hload] at h
    simp [Except.map] at h
  | ok d =>
    exact ⟨d, rfl, save_new_data_ok_out existing recs d out hload h⟩

/-! ### The claims -/

/-- C1: the merge-update operation is idempotent. When update on an existing
table with a record sequence succeeds and writes a table, running update
again on that written table with an empty record sequence writes the very
same table, and running update again on it with the same record sequence
also writes the very same table. -/
theorem C1_update_idempotent (existing : Option (List (List String)))
    (recs : List (String × String)) (out : List (List String))
    (h : save_new_data existing recs = .ok out) :
    save_new_data (some out) [] = .ok out ∧ save_new_data (some out) recs = .ok out := by
  obtain ⟨d, hd, hout⟩ := save_new_data_ok existing recs out h
  have hndm : (dictKeys (mergeRecords d recs)).Nodup :=
    nodup_dictKeys_mergeRecords recs d (loadTable_ok_nodup existing d hd)
  obtain ⟨d', hload', hlook', hperm', hnd'⟩ := loadRows_outputRows (mergeRecords d recs) hndm
  constructor
  · unfold save_new_data
    rw [hout]
    rw [show loadTable (some (outputRows (mergeRecords d recs))) =
      loadRows (outputRows (mergeRecords d recs)) from rfl, hload']
    show Except.ok (outputRows (mergeRecords d' [])) = _
    rw [mergeRecords_nil, outputRows_congr d' (mergeRecords d recs) hperm' hlook']
  · unfold save_new_data
    rw [hout]
    rw [show loadTable (some (outputRows (mergeRecords d recs))) =
      loadRows (outputRows (mergeRecords d recs)) from rfl, hload']
    show Except.ok (outputRows (mergeRecords d' recs)) = _
    have hnd2 : (dictKeys (mergeRecords d' recs)).Nodup :=
      nodup_dictKeys_mergeRecords recs d' hnd'
    have hperm2 : List.Perm (dictKeys (mergeRecords d' recs))
        (dictKeys (mergeRecords d recs)) := by
      rw [List.perm_ext_iff_of_nodup hnd2 hndm]
      intro a
      rw [mem_dictKeys_mergeRecords, hperm'.mem_iff, mem_dictKeys_mergeRecords]
      tauto
    have hlook2 : ∀ k, dictLookup (mergeRecords d' recs) k =
        dictLookup (mergeRecords d recs) k := by
      intro k
      rw [dictLookup_mergeRecords recs d' k, hlook' k, dictLookup_mergeRecords recs d k,
        option_or_or_self, ← dictLookup_mergeRecords recs d k]
    rw [outputRows_congr _ _ hperm2 hlook2]

/-- C1 witness: a concrete successful update on a one-row table, for which
the two re-runs reproduce the same written table. -/
theorem C1_update_idempotent_witness :
    save_new_data (some [["20230101", "5", "5", "5", "5", "0"]]) [("20230102", "3")] =
      .ok [["20230101", "5", "5", "5", "5", "0"], ["20230102", "3", "3", "3", "3", "0"]] ∧
    (save_new_data
        (some [["20230101", "5", "5", "5", "5", "0"], ["20230102", "3", "3", "3", "3", "0"]])
        [] =
      .ok [["20230101", "5", "5", "5", "5", "0"], ["20230102", "3", "3", "3", "3", "0"]] ∧
    save_new_data
        (some [["20230101", "5", "5", "5", "5", "0"], ["20230102", "3", "3", "3", "3", "0"]])
        [("20230102", "3")] =
      .ok [["20230101", "5", "5", "5", "5", "0"], ["20230102", "3", "3", "3", "3", "0"]]) :=
  ⟨by rfl,
    C1_update_idempotent (some [["20230101", "5", "5", "5", "5", "0"]]) [("20230102", "3")]
      [["20230101", "5", "5", "5", "5", "0"], ["20230102", "3", "3", "3", "3", "0"]] (by rfl)⟩

/-- C2 counterexample: the timestamp 2023-05-04T00:00:00Z does not map to the
8-digit date-key 20230504; the conversion of lines 96-98 keeps the letter T,
because the slice bound is index of T plus one. -/
theorem C2_counterexample : toDateKey "2023-05-04T00:00:00Z" ≠ some "20230504" := by
  decide

/-- C2 amended: the conversion truncates the timestamp just after its first
letter T and strips the dash separators, so a timestamp whose date portion
comes before the first T maps to the 8 digits followed by a trailing T; in
particular 2023-05-04T00:00:00Z maps to 20230504T. -/
theorem C2_date_key_conversion :
    (∀ pre rest : String, 'T' ∉ pre.data →
      toDateKey (pre ++ "T" ++ rest) =
        some (String.mk (pre.data.filter (fun c => c != '-') ++ ['T']))) ∧
    toDateKey "2023-05-04T00:00:00Z" = some "20230504T" :=
  ⟨toDateKey_decompose, by decide⟩

/-- C2 witness: the amended conversion rule applied to the concrete
timestamp split as date portion, separator and time portion. -/
theorem C2_date_key_conversion_witness :
    toDateKey ("2023-05-04" ++ "T" ++ "00:00:00Z") =
      some (String.mk (("2023-05-04").data.filter (fun c => c != '-') ++ ['T'])) :=
  C2_date_key_conversion.1 "2023-05-04" "00:00:00Z" (by decide)

/-- C3: overwrite semantics. Whenever update succeeds, every key that occurs
among the incoming records appears in the written table with the value of
the last incoming record carrying that key, whatever the existing table
stored for it; in particular later records override earlier ones and
pre-existing entries. -/
theorem C3_overwrite_semantics (existing : Option (List (List String)))
    (recs : List (String × String)) (k v : String) (out : List (List String))
    (hok : save_new_data existing recs = .ok out)
    (hlast : lastValue recs k = some v) :
    [k, v, v, v, v, "0"] ∈ out := by
  obtain ⟨d, _, hout⟩ := save_new_data_ok existing recs out hok
  rw [hout, mem_outputRows]
  refine ⟨k, v, ?_, rfl⟩
  rw [dictLookup_mergeRecords, hlast]
  rfl

/-- C3 witness: a key present in the existing table and twice among the
incoming records ends up with the value of the last incoming record. -/
theorem C3_overwrite_semantics_witness :
    save_new_data (some [["20230101", "5", "5", "5", "5", "0"]])
        [("20230101", "7"), ("20230101", "9")] =
      .ok [["20230101", "9", "9", "9", "9", "0"]] ∧
    lastValue [("20230101", "7"), ("20230101", "9")] "20230101" = some "9" ∧
    ["20230101", "9", "9", "9", "9", "0"] ∈ [["20230101", "9", "9", "9", "9", "0"]] :=
  ⟨by rfl, by rfl,
    C3_overwrite_semantics (some [["20230101", "5", "5", "5", "5", "0"]])
      [("20230101", "7"), ("20230101", "9")] "20230101" "9"
      [["20230101", "9", "9", "9", "9", "0"]] (by rfl) (by rfl)⟩

/-- C4: whenever update succeeds, the date-keys of the written rows are
strictly ascending in the lexicographic order on code-point sequences, and
in particular no date-key occurs in two rows. -/
theorem C4_rows_strictly_sorted (existing : Option (List (List String)))
    (recs : List (String × String)) (out : List (List String))
    (hok : save_new_data existing recs = .ok out) :
    (out.map rowKey).Pairwise keyLt ∧ (out.map rowKey).Nodup := by
  obtain ⟨d, hd, hout⟩ := save_new_data_ok existing recs out hok
  have hndm : (dictKeys (mergeRecords d recs)).Nodup :=
    nodup_dictKeys_mergeRecords recs d (loadTable_ok_nodup existing d hd)
  have hp : (out.map rowKey).Pairwise keyLt := by
    rw [hout]
    exact outputRows_strict_sorted _ hndm
  refine ⟨hp, hp.imp ?_⟩
  intro a b hlt heq
  exact absurd (heq ▸ hlt) (lt_irrefl _)

/-- C4 witness: a concrete update whose incoming records arrive in
descending order still writes strictly ascending, duplicate-free rows. -/
theorem C4_rows_strictly_sorted_witness :
    save_new_data none [("20230103", "7"), ("20230101", "5")] =
      .ok [["20230101", "5", "5", "5", "5", "0"], ["20230103", "7", "7", "7", "7", "0"]] ∧
    (([["20230101", "5", "5", "5", "5", "0"],
        ["20230103", "7", "7", "7", "7", "0"]].map rowKey).Pairwise keyLt ∧
      ([["20230101", "5", "5", "5", "5", "0"],
        ["20230103", "7", "7", "7", "7", "0"]].map rowKey).Nodup) :=
  ⟨by rfl,
    C4_rows_strictly_sorted none [("20230103", "7"), ("20230101", "5")]
      [["20230101", "5", "5", "5", "5", "0"], ["20230103", "7", "7", "7", "7", "0"]] (by rfl)⟩

/-- C5: serialization format. Whenever update succeeds, the written rows are
exactly one row per entry of the merged table, each consisting of six
fields: the date-key, the value of that entry repeated four times, and the
constant 0; there is no header row and nothing else is written. -/
theorem C5_row_format (existing : Option (List (List String)))
    (recs : List (String × String)) (d : List (String × String))
    (out : List (List String)) (hload : loadTable existing = .ok d)
    (hok : save_new_data existing recs = .ok out) :
    (∀ row ∈ out, ∃ k v, dictLookup (mergeRecords d recs) k = some v ∧
      row = [k, v, v, v, v, "0"]) ∧
    (∀ k v, dictLookup (mergeRecords d recs) k = some v → [k, v, v, v, v, "0"] ∈ out) := by
  have hout := save_new_data_ok_out existing recs d out hload hok
  constructor
  · intro row hrow
    rw [hout, mem_outputRows] at hrow
    exact hrow
  · intro k v hv
    rw [hout, mem_outputRows]
    exact ⟨k, v, hv, rfl⟩

/-- C5 witness: the row format read off a concrete successful update. -/
theorem C5_row_format_witness :
    (∀ row ∈ [["20230101", "5", "5", "5", "5", "0"]],
      ∃ k v, dictLookup (mergeRecords [] [("20230101", "5")]) k = some v ∧
        row = [k, v, v, v, v, "0"]) ∧
    (∀ k v, dictLookup (mergeRecords [] [("20230101", "5")]) k = some v →
      [k, v, v, v, v, "0"] ∈ [["20230101", "5", "5", "5", "5", "0"]]) :=
  C5_row_format none [("20230101", "5")] [] [["20230101", "5", "5", "5", "5", "0"]]
    (by rfl) (by rfl)

/-- C6: starting scenario. With no existing file, or with an existing file
holding no rows, and incoming records 20230101 to 5 and 20230103 to 7, the
update writes exactly the two lines 20230101,5,5,5,5,0 and 20230103,7,7,7,7,0
in that order. -/
theorem C6_scenario_fresh :
    save_new_data none [("20230101", "5"), ("20230103", "7")] =
      .ok [["20230101", "5", "5", "5", "5", "0"], ["20230103", "7", "7", "7", "7", "0"]] ∧
    save_new_data (some []) [("20230101", "5"), ("20230103", "7")] =
      .ok [["20230101", "5", "5", "5", "5", "0"], ["20230103", "7", "7", "7", "7", "0"]] ∧
    serializeRows
        [["20230101", "5", "5", "5", "5", "0"], ["20230103", "7", "7", "7", "7", "0"]] =
      ["20230101,5,5,5,5,0", "20230103,7,7,7,7,0"] :=
  ⟨by rfl, by rfl, by rfl⟩

/-- C7: merge scenario. With an existing file holding the single row
20230101,5,5,5,5,0 and incoming records 20230101 to 9 and 20230102 to 3, the
update writes exactly the two lines 20230101,9,9,9,9,0 and 20230102,3,3,3,3,0
in that order. -/
theorem C7_scenario_merge :
    save_new_data (some [["20230101", "5", "5", "5", "5", "0"]])
        [("20230101", "9"), ("20230102", "3")] =
      .ok [["20230101", "9", "9", "9", "9", "0"], ["20230102", "3", "3", "3", "3", "0"]] ∧
    serializeRows
        [["20230101", "9", "9", "9", "9", "0"], ["20230102", "3", "3", "3", "3", "0"]] =
      ["20230101,9,9,9,9,0", "20230102,3,3,3,3,0"] :=
  ⟨by rfl, by rfl⟩

/-- C8: load semantics. An absent file yields the empty table; fields of an
existing row beyond the first two have no effect on loading; and when
loading succeeds, the value the loaded table stores for a key is the second
field of the last row whose first field is that key. -/
theorem C8_load_semantics :
    loadTable none = .ok [] ∧
    (∀ rows : List (List String),
      loadTable (some rows) = loadTable (some (rows.map (fun r => r.take 2)))) ∧
    (∀ (rows : List (List String)) (d : List (String × String)),
      loadTable (some rows) = .ok d →
        ∀ k, dictLookup d k =
          lastValue (rows.map (fun r => (r.headD "", (r.drop 1).headD ""))) k) := by
  refine ⟨rfl, ?_, ?_⟩
  · intro rows
    show loadRows rows = loadRows (rows.map (fun r => r.take 2))
    exact (loadRowsFrom_take_two rows []).symm
  · intro rows d hload k
    have hd := loadRowsFrom_ok_eq_merge rows [] d hload
    rw [hd, dictLookup_mergeRecords, show dictLookup [] k = none from rfl, option_or_none]

/-- C8 witness: loading one concrete three-field row stores its first field
as key with its second field as value, the third field being ignored. -/
theorem C8_load_semantics_witness :
    dictLookup [("20230101", "5")] "20230101" =
      lastValue ([["20230101", "5", "9"]].map (fun r => (r.headD "", (r.drop 1).headD "")))
        "20230101" :=
  C8_load_semantics.2.2 [["20230101", "5", "9"]] [("20230101", "5")] (by rfl) "20230101"

/-- C9: a row with fewer than two fields makes the load phase fail with the
modelled index error, aborting the whole update instead of skipping,
padding or repairing the row. -/
theorem C9_short_row_error :
    loadTable (some [["20230101"]]) = .error () ∧
    save_new_data (some [["20230101"]]) [("20230102", "3")] = .error () :=
  ⟨by rfl, by rfl⟩

/-- C10: frame property. A key of the existing table that no incoming record
mentions is written back with its stored value unchanged. -/
theorem C10_frame_property (existing : Option (List (List String)))
    (recs : List (String × String)) (k v : String) (d : List (String × String))
    (out : List (List String)) (hload : loadTable existing = .ok d)
    (hv : dictLookup d k = some v) (habsent : ∀ r ∈ recs, r.1 ≠ k)
    (hok : save_new_data existing recs = .ok out) :
    [k, v, v, v, v, "0"] ∈ out := by
  have hout := save_new_data_ok_out existing recs d out hload hok
  rw [hout, mem_outputRows]
  refine ⟨k, v, ?_, rfl⟩
  rw [dictLookup_mergeRecords]
  have hnone : lastValue recs k = none := by
    rw [lastValue_eq_none_iff]
    intro hmem
    obtain ⟨r, hr, he⟩ := List.mem_map.mp hmem
    exact habsent r hr he
  rw [hnone, hv]
  rfl

/-- C10 witness: an existing entry whose key the single incoming record does
not mention survives the update unchanged. -/
theorem C10_frame_property_witness :
    loadTable (some [["20230101", "5", "5", "5", "5", "0"]]) = .ok [("20230101", "5")] ∧
    dictLookup [("20230101", "5")] "20230101" = some "5" ∧
    ["20230101", "5", "5", "5", "5", "0"] ∈
      [["20230101", "5", "5", "5", "5", "0"], ["20230102", "3", "3", "3", "3", "0"]] :=
  ⟨by rfl, by rfl,
    C10_frame_property (some [["20230101", "5", "5", "5", "5", "0"]]) [("20230102", "3")]
      "20230101" "5" [("20230101", "5")]
      [["20230101", "5", "5", "5", "5", "0"], ["20230102", "3", "3", "3", "3", "0"]]
      (by rfl) (by rfl) (by decide) (by rfl)⟩

end UpdateSantiment
